import Mathlib

/-!
Verification development for the wuapi-essential schema object model
(src/src/index.ts and its util helpers).

The TypeScript classes are embedded shallowly:

* JS objects / JSON documents (the untyped `data: any` arguments of the
  `load` functions) become the inductive `Doc`; `null` and `undefined`
  are both `Doc.vNull` (the source only ever distinguishes them through
  `== null`, which identifies the two).
* string-keyed JS objects used as maps become association lists
  `List (String × α)` in insertion order (JS `for..in` over non-numeric
  string keys iterates own keys in insertion order).  `slookup` is the
  own-property part of `o[k]`; where the looked-up key can be an
  arbitrary schema name, `jsIndex` also models the inherited
  `Object.prototype` properties (`toString`, …) that JS indexing
  reaches on a plain object, and `JsOutcome`/`Except` record the junk
  values and TypeErrors such collisions leak.  The `load` functions
  read only fixed schema keys (`"type"`, `"entities"`, …), none of
  which collides with a prototype name, so own-key lookup is faithful
  there.
* class fields that are merely copied from the document and never read
  by any method in the source (comments, config maps, flags, fixed
  values, numeric enum codes) keep the raw `Doc` value, so the copying
  is modelled exactly without inventing coercions the source never
  performs.
* methods that recurse through `parent.asEntityOf(project)` are not
  structurally recursive (the source loops forever on a cyclic parent
  chain); they take an explicit fuel parameter, large enough in every
  theorem for the concrete chains evaluated, and return `Except`
  because the source can throw on prototype-colliding parent paths.
* the one `throw` in the source (`equalsEvenInList` on a list receiver)
  is modelled by returning `Except.error` with the thrown message.
-/

namespace WuApi

/-- Untyped JSON-ish document value, the shallow embedding of the
`data: any` arguments of the `load` functions. `vNull` covers both
JS `null` and `undefined`. -/
inductive Doc where
  | vNull : Doc
  | vBool : Bool → Doc
  | vNum : Int → Doc
  | vStr : String → Doc
  | vObj : List (String × Doc) → Doc

/-- Own-property association-list lookup: the part of `o[k]` on a
string-keyed JS object that sees the stored entries (keys are unique
in objects built from JSON, so first match is the match).  Full JS
indexing, which can also reach inherited `Object.prototype` members,
is `jsIndex` below. -/
def slookup {α : Type} : List (String × α) → String → Option α
  | [], _ => none
  | (k, v) :: rest, key => if k = key then some v else slookup rest key

/-- util.ts `notNU` on a single value: true iff the value is neither
null nor undefined. -/
def notNU (d : Doc) : Bool :=
  match d with
  | .vNull => false
  | _ => true

/-- Property access `data.k`: on an object, the value stored under `k`
(or undefined = `vNull` when missing); on any non-object, `vNull`
(the source only ever reads properties that JS reports as undefined
on primitives, never throwing, because no load dereferences null).
Every `load` reads only fixed schema keys (`type`, `entities`, …),
none of which collides with an inherited `Object.prototype` name, so
own-key lookup is faithful for these reads. -/
def Doc.get (d : Doc) (k : String) : Doc :=
  match d with
  | .vObj fields =>
    match slookup fields k with
    | some v => v
    | none => .vNull
  | _ => .vNull

/-- The key/value pairs iterated by `for (let i in data.x)`: the entries
of an object, nothing for a primitive. -/
def Doc.objFields (d : Doc) : List (String × Doc) :=
  match d with
  | .vObj fields => fields
  | _ => []

/-- JS `a ?? b`: `b` when `a` is null/undefined, `a` otherwise. -/
def Doc.orElse (d dflt : Doc) : Doc :=
  match d with
  | .vNull => dflt
  | x => x

/-- A document value read at `string | null` type: a string stays,
null/undefined (and, in this model, any non-string) becomes null. -/
def Doc.asStrOpt (d : Doc) : Option String :=
  match d with
  | .vStr s => some s
  | _ => none

/-- A document value read at `number` type (used only for
`$EnumItem.value`, which the source compares with `<`). -/
def Doc.asIntOr (d : Doc) (dflt : Int) : Int :=
  match d with
  | .vNum n => n
  | _ => dflt

/-- `$ElementPath`: a `(module, name)` coordinate inside a project. -/
structure ElementPath where
  module : Option String
  name : Option String
deriving DecidableEq

/-- `$ElementPath.equals`: false on null/undefined, otherwise
componentwise equality of `module` and `name`. -/
def ElementPath.equals (p : ElementPath) (another : Option ElementPath) : Bool :=
  match another with
  | none => false
  | some q => decide (q.module = p.module) && decide (q.name = p.name)

/-- `$ElementPath.load`: always constructs a path; a missing `module`
or `name` becomes a null coordinate (`data.module ?? null`). -/
def ElementPath.load (data : Doc) : ElementPath :=
  { module := (data.get "module").asStrOpt, name := (data.get "name").asStrOpt }

/-- `$FieldType` and its subclasses: a closed tagged union.  The
subclass constructors of the source become the constructors of this
inductive; the `type` discriminant string each subclass passes to
`super` is recovered by `FieldType.type` below. -/
inductive FieldType where
  | TInteger : FieldType
  | TLong : FieldType
  | TDouble : FieldType
  | TID : FieldType
  | TURL : FieldType
  | TDateTime : FieldType
  | TBoolean : FieldType
  | TString : FieldType
  | TSSMap : FieldType
  | TObject (entity : ElementPath) : FieldType
  | TEnum (enu : ElementPath) : FieldType
  | TList (member : FieldType) : FieldType
  | TUnknown (unknown : String) : FieldType
deriving DecidableEq

/-- The `type` discriminant string of a `$FieldType` value (the string
each subclass constructor passes to `super`). -/
def FieldType.type : FieldType → String
  | .TInteger => "TInteger"
  | .TLong => "TLong"
  | .TDouble => "TDouble"
  | .TID => "TID"
  | .TURL => "TURL"
  | .TDateTime => "TDateTime"
  | .TBoolean => "TBoolean"
  | .TString => "TString"
  | .TSSMap => "TSSMap"
  | .TObject _ => "TObject"
  | .TEnum _ => "TEnum"
  | .TList _ => "TList"
  | .TUnknown _ => "TUnknown"

/-- `$FieldType.equals`: null ⇒ false; tag mismatch ⇒ false; then the
source switches on the tag, comparing the payloads of `TObject`,
`TEnum`, `TUnknown`, `TList`, and returns true in the default
(payload-free) cases. -/
def FieldType.equals : FieldType → Option FieldType → Bool
  | _, none => false
  | a, some b =>
    if b.type ≠ a.type then false
    else
      match a, b with
      | .TObject e1, .TObject e2 => ElementPath.equals e1 (some e2)
      | .TEnum e1, .TEnum e2 => ElementPath.equals e1 (some e2)
      | .TUnknown u1, .TUnknown u2 => decide (u1 = u2)
      | .TList m1, .TList m2 => FieldType.equals m1 (some m2)
      | _, _ => true

/-- The recursion of `$FieldType.equalsEvenInList` once the receiver
is known not to be a list and the argument known non-null: the source
re-enters `this.equalsEvenInList((another as $TList).member)` while the
argument is a `TList` (the receiver check and null check re-evaluate to
false on re-entry, `this` being unchanged and the member non-null), and
falls back to `equals` otherwise. -/
def FieldType.equalsEvenInListAux (a : FieldType) : FieldType → Bool
  | .TList m => FieldType.equalsEvenInListAux a m
  | b => FieldType.equals a (some b)

/-- `$FieldType.equalsEvenInList`: throws (modelled as `Except.error`
with the thrown string) when the receiver is a list; returns false on
null/undefined; unwraps the argument through `TList` layers by
recursion; otherwise falls back to `equals`. -/
def FieldType.equalsEvenInList (a : FieldType) (another : Option FieldType) :
    Except String Bool :=
  if a.type = "TList" then
    Except.error "List field shall not use quealsInList!"
  else
    match another with
    | none => Except.ok false
    | some b => Except.ok (FieldType.equalsEvenInListAux a b)

/-- A document value read at `string` type with a default. -/
def Doc.asStrOr (d : Doc) (dflt : String) : String :=
  match d with
  | .vStr s => s
  | _ => dflt

/-- `$EnumItem`: a numbered enumeration member.  `realname`, `comment`
and `config` are copied from the document and never read by any method
of the source, so they keep the raw document value. -/
structure EnumItem where
  value : Int
  realname : Doc := Doc.vNull
  comment : Doc := Doc.vStr ""
  config : Doc := Doc.vNull

/-- `$Enum`: a name-keyed map of enumeration items. -/
structure Enum where
  enumMap : List (String × EnumItem) := []
  comment : Doc := Doc.vStr ""
  config : Doc := Doc.vNull

/-- The `for..in` loop of `$Enum.firstName`, carrying the running
minimum value `i` and its key `k`: a new entry wins exactly when no
minimum has been seen yet or its value is strictly below the running
minimum. -/
def firstNameLoop : Option Int → Option String →
    List (String × EnumItem) → Option String
  | _, k, [] => k
  | i, k, (key, item) :: rest =>
    match i with
    | none => firstNameLoop (some item.value) (some key) rest
    | some iv =>
      if item.value < iv then firstNameLoop (some item.value) (some key) rest
      else firstNameLoop (some iv) k rest

/-- `$Enum.firstName`: key of the item with the minimum value, null on
an empty enum. -/
def Enum.firstName (e : Enum) : Option String :=
  firstNameLoop none none e.enumMap

/-- `$Enum.first`: the item stored under `firstName()`, null when that
is null.  The key comes from the scan of `enumMap` itself, so it is an
own key and own-key lookup is faithful. -/
def Enum.first (e : Enum) : Option EnumItem :=
  match e.firstName with
  | none => none
  | some k => slookup e.enumMap k

/-- `$Field`: a typed entity member.  Every component other than `type`
is copied from the document and never read back by the source, so the
raw document value is kept. -/
structure Field where
  type : FieldType
  realname : Doc := Doc.vNull
  isOptional : Doc := Doc.vBool false
  isPathParameter : Doc := Doc.vBool false
  fixedValue : Doc := Doc.vNull
  comment : Doc := Doc.vStr ""
  config : Doc := Doc.vNull

/-- `$Entity`: an object/request/response declaration.  `type`,
`isAbstract`, `path`, `method`, `comment`, `config` are copied and
never read by the source's methods, so they keep the raw document
value; `parent` and `response` are genuine `$ElementPath | null`
references. -/
structure Entity where
  type : Doc := Doc.vNum 0
  isAbstract : Doc := Doc.vBool false
  parent : Option ElementPath := none
  response : Option ElementPath := none
  path : Doc := Doc.vNull
  method : Doc := Doc.vNull
  fieldsLocal : List (String × Field) := []
  genericMap : List (String × Field) := []
  comment : Doc := Doc.vStr ""
  config : Doc := Doc.vNull

/-- `$Module`: entity map and enum map. -/
structure Module where
  entities : List (String × Entity) := []
  enums : List (String × Enum) := []

/-- `$Project`: name/version/targetPackage (copied, never read) and
the module map. -/
structure Project where
  name : Doc := Doc.vStr ""
  version : Doc := Doc.vStr ""
  targetPackage : Doc := Doc.vStr ""
  modules : List (String × Module) := []

/-- Property names every plain JS object literal (the source's
`{[key: string]: T}` maps are plain `{}` literals) inherits from
`Object.prototype` (ES2023 20.2.3 plus the Annex-B accessors).
Indexing a map with one of these returns a non-nullish inherited value
even though no entry is stored; `for..in` does not list them (they are
neither own nor enumerable). -/
def protoKeys : List String :=
  ["constructor", "hasOwnProperty", "isPrototypeOf",
   "propertyIsEnumerable", "toLocaleString", "toString", "valueOf",
   "__proto__", "__defineGetter__", "__defineSetter__",
   "__lookupGetter__", "__lookupSetter__"]

/-- Result of JS property access `o[k]` on a string-keyed map object:
a stored own entry, an inherited `Object.prototype` member (some
non-nullish value that is no `α`), or undefined. -/
inductive JsProp (α : Type) where
  | own (v : α) : JsProp α
  | inherited : JsProp α
  | undef : JsProp α

/-- JS property access `o[k]` on a map object: the stored entry when
the key is an own key, the inherited `Object.prototype` member when
the key collides with one, undefined otherwise. -/
def jsIndex {α : Type} (m : List (String × α)) (k : String) : JsProp α :=
  match slookup m k with
  | some v => JsProp.own v
  | none =>
    if protoKeys.contains k then JsProp.inherited else JsProp.undef

/-- JS truthiness of a property-access result: stored nodes and
inherited prototype members (functions, objects) are truthy;
undefined is falsy. -/
def JsProp.truthy {α : Type} : JsProp α → Bool
  | .undef => false
  | _ => true

/-- Outcome of a source expression of declared type `T | null` under
real JS semantics: a stored node, null, an inherited
`Object.prototype` member leaked through (non-null junk of the wrong
type), or a thrown TypeError. -/
inductive JsOutcome (α : Type) where
  | val (v : α) : JsOutcome α
  | nullv : JsOutcome α
  | junk : JsOutcome α
  | typeError : JsOutcome α

/-- `$ElementPath.asEntityOf`:
`project.modules[this.module]?.entities[this.name] ?? null` after the
null-project and null-coordinate guards.  Under JS lookup semantics: a
missing module key short-circuits `?.` to undefined and `?? null`
gives null; a module key colliding with an `Object.prototype` name
yields the inherited member, whose `.entities` is undefined, so the
inner index throws a TypeError; under a stored module, a missing
entity key gives null, while a prototype-colliding entity key returns
the inherited member itself (non-nullish, kept by `?? null`). -/
def ElementPath.asEntityOf (p : ElementPath) (project : Option Project) :
    JsOutcome Entity :=
  match project with
  | none => .nullv
  | some proj =>
    match p.module, p.name with
    | some m, some n =>
      match jsIndex proj.modules m with
      | .own md =>
        match jsIndex md.entities n with
        | .own e => .val e
        | .inherited => .junk
        | .undef => .nullv
      | .inherited => .typeError
      | .undef => .nullv
    | _, _ => .nullv

/-- `$ElementPath.asEnumOf`:
`project.modules[this.module]?.enums[this.name] ?? null`, with the
same JS lookup semantics as `asEntityOf`. -/
def ElementPath.asEnumOf (p : ElementPath) (project : Option Project) :
    JsOutcome Enum :=
  match project with
  | none => .nullv
  | some proj =>
    match p.module, p.name with
    | some m, some n =>
      match jsIndex proj.modules m with
      | .own md =>
        match jsIndex md.enums n with
        | .own e => .val e
        | .inherited => .junk
        | .undef => .nullv
      | .inherited => .typeError
      | .undef => .nullv
    | _, _ => .nullv

/-- `$Entity.getGenericLocal`: the `unknown` names of the
`TUnknown`-typed fields of `fieldsLocal`, in declaration order. -/
def Entity.getGenericLocal (e : Entity) : List String :=
  e.fieldsLocal.filterMap (fun kv =>
    match kv.2.type with
    | .TUnknown u => some u
    | _ => none)

/-- The error kind JS throws when an undefined member is called or
undefined is indexed; the model keeps only the kind, not the message
text. -/
def jsTypeError : String := "TypeError"

/-- The tail of `$Entity.getGenericUnsolved` once the parent part `pg`
is known: `pg.concat(this.getGenericLocal())` filtered by
`(o) => !this.genericMap[o]`.  The predicate is JS truthiness of the
lookup, so a name is removed not only when it is a key of
`genericMap` but also when it collides with an inherited
`Object.prototype` property name. -/
def Entity.unsolvedStep (e : Entity) (pg : List String) : List String :=
  (pg ++ e.getGenericLocal).filter
    (fun o => !(jsIndex e.genericMap o).truthy)

/-- `$Entity.getGenericUnsolved` with an explicit fuel bounding the
parent recursion (the source recurses unboundedly through
`parent?.asEntityOf(project)?.getGenericUnsolved(project)` and loops
forever on a cyclic chain; with fuel at least the ancestor-chain
length the two agree).  With no project the result is [].  The parent
part is [] when the parent is absent or resolves to null; it recurses
when the parent resolves to a stored entity; and the call throws
(modelled as `Except.error`) when `asEntityOf` throws, or when it
returns an inherited prototype member, on which
`?.getGenericUnsolved(project)` calls an undefined member.  At fuel 0
with a stored parent, the recursion is cut to [] (fuel artifact,
outside every theorem's hypotheses). -/
def Entity.getGenericUnsolvedFuel : Nat → Entity → Option Project →
    Except String (List String)
  | _, _, none => Except.ok []
  | 0, e, some p =>
    match e.parent with
    | none => Except.ok (e.unsolvedStep [])
    | some pp =>
      match pp.asEntityOf (some p) with
      | .typeError => Except.error jsTypeError
      | .junk => Except.error jsTypeError
      | _ => Except.ok (e.unsolvedStep [])
  | f + 1, e, some p =>
    match e.parent with
    | none => Except.ok (e.unsolvedStep [])
    | some pp =>
      match pp.asEntityOf (some p) with
      | .typeError => Except.error jsTypeError
      | .junk => Except.error jsTypeError
      | .nullv => Except.ok (e.unsolvedStep [])
      | .val pe =>
        match Entity.getGenericUnsolvedFuel f pe (some p) with
        | Except.error s => Except.error s
        | Except.ok pg => Except.ok (e.unsolvedStep pg)

/-- `$Entity.fromAncestorToMe` with explicit fuel, recording the visit
sequence instead of invoking the callback.  The resolved parent's walk
runs first, then this entity is visited.  When the parent path
resolves to null the walk starts here; when `asEntityOf` throws, or
returns an inherited prototype member on which
`?.fromAncestorToMe(project, block)` calls an undefined member, the
exception propagates and this entity is never visited. -/
def Entity.fromAncestorToMeFuel : Nat → Project → Entity →
    Except String (List Entity)
  | 0, p, e =>
    match e.parent with
    | none => Except.ok (([] : List Entity) ++ [e])
    | some pp =>
      match pp.asEntityOf (some p) with
      | .typeError => Except.error jsTypeError
      | .junk => Except.error jsTypeError
      | _ => Except.ok (([] : List Entity) ++ [e])
  | f + 1, p, e =>
    match e.parent with
    | none => Except.ok (([] : List Entity) ++ [e])
    | some pp =>
      match pp.asEntityOf (some p) with
      | .typeError => Except.error jsTypeError
      | .junk => Except.error jsTypeError
      | .nullv => Except.ok (([] : List Entity) ++ [e])
      | .val pe =>
        match Entity.fromAncestorToMeFuel f p pe with
        | Except.error s => Except.error s
        | Except.ok vs => Except.ok (vs ++ [e])

/-- `$Project.flatEntities`: one `(path, entity)` pair per entity of
every module, the path built from the module key and the entity key
(the nested `forIn` pushes exactly the entries of each module's
entity map, modules in map order). -/
def Project.flatEntities (p : Project) : List (ElementPath × Entity) :=
  p.modules.flatMap (fun mkv =>
    mkv.2.entities.map (fun ekv =>
      ({ module := some mkv.1, name := some ekv.1 }, ekv.2)))

/-- `$Project.flatEnums`: one `(path, enum)` pair per enum of every
module. -/
def Project.flatEnums (p : Project) : List (ElementPath × Enum) :=
  p.modules.flatMap (fun mkv =>
    mkv.2.enums.map (fun ekv =>
      ({ module := some mkv.1, name := some ekv.1 }, ekv.2)))

/-- `$EnumItem.load`: null when `value` is missing, otherwise the item
with the document's fields. -/
def EnumItem.load (data : Doc) : Option EnumItem :=
  if notNU (data.get "value") = false then none
  else some {
    value := (data.get "value").asIntOr 0
    comment := (data.get "comment").orElse (Doc.vStr "")
    config := data.get "config"
    realname := data.get "realname"
  }

/-- `$Enum.load`: null when `enumMap` is missing; items whose own load
fails are silently dropped. -/
def Enum.load (data : Doc) : Option Enum :=
  if notNU (data.get "enumMap") = false then none
  else some {
    comment := (data.get "comment").orElse (Doc.vStr "")
    config := data.get "config"
    enumMap := (data.get "enumMap").objFields.filterMap (fun kv =>
      (EnumItem.load kv.2).map (fun it => (kv.1, it)))
  }

/-- `$FieldType.load`: dispatch on the `type` discriminator string;
null when `type` or a required payload is missing, or the discriminator
is unrecognized.  In the `TObject` and `TEnum` branches the source
binds `path = $ElementPath.load(...)` and then null-checks it; the
binding is kept (wrapped in `some`, a returned object being non-null)
so the dead check stays visible. -/
def FieldType.load (data : Doc) : Option FieldType :=
  if notNU (data.get "type") = false then none
  else
    match data.get "type" with
    | .vStr "TInteger" => some .TInteger
    | .vStr "TLong" => some .TLong
    | .vStr "TDouble" => some .TDouble
    | .vStr "TID" => some .TID
    | .vStr "TURL" => some .TURL
    | .vStr "TDateTime" => some .TDateTime
    | .vStr "TBoolean" => some .TBoolean
    | .vStr "TString" => some .TString
    | .vStr "TSSMap" => some .TSSMap
    | .vStr "TObject" =>
      if notNU (data.get "entity") = false then none
      else
        let path : Option ElementPath := some (ElementPath.load (data.get "entity"))
        match path with
        | none => none
        | some p => some (.TObject p)
    | .vStr "TEnum" =>
      if notNU (data.get "enu") = false then none
      else
        let path : Option ElementPath := some (ElementPath.load (data.get "enu"))
        match path with
        | none => none
        | some p => some (.TEnum p)
    | .vStr "TList" =>
      if h : notNU (data.get "member") = false then none
      else
        match FieldType.load (data.get "member") with
        | none => none
        | some m => some (.TList m)
    | .vStr "TUnknown" =>
      if notNU (data.get "unknown") = false then none
      else some (.TUnknown ((data.get "unknown").asStrOr ""))
    | _ => none
termination_by sizeOf data
decreasing_by
  have h2 : notNU (data.get "member") = true := by
    revert h
    cases notNU (data.get "member") <;> simp
  have slk : ∀ (l : List (String × Doc)) (k : String) (v : Doc),
      slookup l k = some v → sizeOf v < sizeOf l := by
    intro l
    induction l with
    | nil => intro k v hv; simp [slookup] at hv
    | cons p rest ih =>
      intro k v hv
      obtain ⟨k1, v1⟩ := p
      rw [slookup] at hv
      split at hv
      · cases hv
        simp
        omega
      · have := ih k v hv
        simp
        omega
  have hlt : sizeOf (data.get "member") < sizeOf data := by
    cases data with
    | vObj fields =>
      cases hl : slookup fields "member" with
      | none => rw [Doc.get, hl] at h2; simp [notNU] at h2
      | some v =>
        have hv := slk fields "member" v hl
        rw [Doc.get, hl]
        simp
        omega
    | vNull => simp [Doc.get, notNU] at h2
    | vBool b => simp [Doc.get, notNU] at h2
    | vNum n => simp [Doc.get, notNU] at h2
    | vStr s => simp [Doc.get, notNU] at h2
  exact hlt

/-- `$Field.load`: null when `type`, `isOptional` or `isPathParameter`
is missing or the field type fails to load. -/
def Field.load (data : Doc) : Option Field :=
  if (notNU (data.get "type") && notNU (data.get "isOptional") &&
      notNU (data.get "isPathParameter")) = false then none
  else
    match FieldType.load (data.get "type") with
    | none => none
    | some ft => some {
        type := ft
        comment := (data.get "comment").orElse (Doc.vStr "")
        config := data.get "config"
        realname := data.get "realname"
        isOptional := data.get "isOptional"
        isPathParameter := data.get "isPathParameter"
        fixedValue := data.get "fixedValue"
      }

/-- The field-map loading loop shared by `fieldsLocal` and
`genericMap` in `$Entity.load`: entries whose `$Field.load` fails are
silently dropped, the rest keep their document key. -/
def loadFieldEntries (entries : List (String × Doc)) : List (String × Field) :=
  entries.filterMap (fun kv => (Field.load kv.2).map (fun f => (kv.1, f)))

/-- `$Entity.load`: null when `type`, `isAbstract`, `fieldsLocal` or
`genericMap` is missing; `parent`/`response` are loaded only when
present; malformed fields are dropped from both maps. -/
def Entity.load (data : Doc) : Option Entity :=
  if (notNU (data.get "type") && notNU (data.get "isAbstract") &&
      notNU (data.get "fieldsLocal") && notNU (data.get "genericMap")) = false
  then none
  else some {
    type := data.get "type"
    comment := (data.get "comment").orElse (Doc.vStr "")
    config := data.get "config"
    isAbstract := data.get "isAbstract"
    path := data.get "path"
    method := data.get "method"
    parent :=
      if notNU (data.get "parent") then some (ElementPath.load (data.get "parent"))
      else none
    response :=
      if notNU (data.get "response") then some (ElementPath.load (data.get "response"))
      else none
    fieldsLocal := loadFieldEntries (data.get "fieldsLocal").objFields
    genericMap := loadFieldEntries (data.get "genericMap").objFields
  }

/-- `$Module.load`: null when `entities` or `enums` is missing;
children whose load fails are dropped. -/
def Module.load (data : Doc) : Option Module :=
  if (notNU (data.get "entities") && notNU (data.get "enums")) = false then none
  else some {
    entities := (data.get "entities").objFields.filterMap (fun kv =>
      (Entity.load kv.2).map (fun e => (kv.1, e)))
    enums := (data.get "enums").objFields.filterMap (fun kv =>
      (Enum.load kv.2).map (fun e => (kv.1, e)))
  }

/-- `$Project.load`: null when `name`, `version`, `targetPackage` or
`modules` is missing; modules whose load fails are dropped. -/
def Project.load (data : Doc) : Option Project :=
  if (notNU (data.get "name") && notNU (data.get "version") &&
      notNU (data.get "targetPackage") && notNU (data.get "modules")) = false
  then none
  else some {
    name := data.get "name"
    version := data.get "version"
    targetPackage := data.get "targetPackage"
    modules := (data.get "modules").objFields.filterMap (fun kv =>
      (Module.load kv.2).map (fun m => (kv.1, m)))
  }

/-- Specification-side helper for claim C2: strip every nesting of
`TList` from a type (repeatedly take the member while the type is a
list). -/
def stripListsSpec : FieldType → FieldType
  | .TList m => stripListsSpec m
  | t => t

/-- Specification-side structural equality of claim C3: equal
payload-free tags are equal; `TObject`/`TEnum` compare their paths by
`$ElementPath.equals`; `TList` compares members recursively; `TUnknown`
compares parameter names; everything else is unequal. -/
def equalsSpec : FieldType → FieldType → Bool
  | .TInteger, .TInteger => true
  | .TLong, .TLong => true
  | .TDouble, .TDouble => true
  | .TID, .TID => true
  | .TURL, .TURL => true
  | .TDateTime, .TDateTime => true
  | .TBoolean, .TBoolean => true
  | .TString, .TString => true
  | .TSSMap, .TSSMap => true
  | .TObject e1, .TObject e2 => ElementPath.equals e1 (some e2)
  | .TEnum e1, .TEnum e2 => ElementPath.equals e1 (some e2)
  | .TList m1, .TList m2 => equalsSpec m1 m2
  | .TUnknown u1, .TUnknown u2 => decide (u1 = u2)
  | _, _ => false

/-- Specification-side helper for claim C4: the minimum item value of
an entry list together with the key of its first occurrence. -/
def firstMin : List (String × EnumItem) → Option (Int × String)
  | [] => none
  | (k, it) :: rest =>
    match firstMin rest with
    | none => some (it.value, k)
    | some (v, k1) => if it.value ≤ v then some (it.value, k) else some (v, k1)

/-- Fixture: a local field of generic type `TUnknown "T"`. -/
def tField : Field := { type := .TUnknown "T" }

/-- Fixture: the concrete bound the child gives to `"T"`. -/
def boundField : Field := { type := .TInteger }

/-- Fixture: a parent entity introducing the generic `"T"`. -/
def wuParent : Entity := { fieldsLocal := [("t", tField)] }

/-- Fixture: a child entity extending the parent and solving `"T"` in
its `genericMap`. -/
def wuChild : Entity :=
  { parent := some { module := some "m", name := some "Parent" },
    genericMap := [("T", boundField)] }

/-- Fixture: the module holding parent and child. -/
def wuModule : Module := { entities := [("Parent", wuParent), ("Child", wuChild)] }

/-- Fixture: the project holding the module. -/
def wuProj : Project := { modules := [("m", wuModule)] }

/-- Fixture: an entity whose only local field is the generic
`TUnknown "toString"`, with an empty `genericMap` — the generic name
collides with an inherited `Object.prototype` property. -/
def protoGenericEntity : Entity :=
  { fieldsLocal := [("t", { type := .TUnknown "toString" })] }

/-- Fixture: an entity whose parent path names the stored module `m`
but the prototype-colliding, unstored entity name `toString`. -/
def protoParentEntity : Entity :=
  { parent := some { module := some "m", name := some "toString" } }

/-- Fixture: an entity whose parent path's module coordinate is the
prototype-colliding, unstored name `toString`. -/
def protoModuleEntity : Entity :=
  { parent := some { module := some "toString", name := some "A" } }

/-- Fixture: an enum whose two items tie for the minimum value; the
second-visited item is `"c"`. -/
def wuTieEnum : Enum :=
  { enumMap := [("b", { value := 1 }), ("c", { value := 1 })] }

/-- Fixture: the enum of the spec scenario, items `a ↦ 3`, `b ↦ 1`,
`c ↦ 1`. -/
def wuAbcEnum : Enum :=
  { enumMap := [("a", { value := 3 }), ("b", { value := 1 }),
                ("c", { value := 1 })] }

/-- Fixture: a well-formed field document of type `TString`. -/
def goodFieldDoc : Doc :=
  .vObj [("type", .vObj [("type", .vStr "TString")]),
         ("isOptional", .vBool false), ("isPathParameter", .vBool false)]

/-- Fixture: a field document missing `isOptional`. -/
def badFieldDoc : Doc :=
  .vObj [("type", .vObj [("type", .vStr "TString")]),
         ("isPathParameter", .vBool false)]

/-- Fixture: an entity document whose `fieldsLocal` has one well-formed
and one malformed entry. -/
def c6EntityDoc : Doc :=
  .vObj [("type", .vNum 0), ("isAbstract", .vBool false),
         ("fieldsLocal", .vObj [("good", goodFieldDoc), ("bad", badFieldDoc)]),
         ("genericMap", .vObj [])]

/-- Fixture: the inner entity document of the claim-C7 scenario. -/
def c7EntityDoc : Doc :=
  .vObj [("type", .vNum 0), ("isAbstract", .vBool false),
         ("fieldsLocal", .vObj []), ("genericMap", .vObj [])]

/-- Fixture: the claim-C7 scenario document exactly as the claim
writes it: no `name`/`version`/`targetPackage` and no `enums`. -/
def c7ClaimDoc : Doc :=
  .vObj [("modules",
          .vObj [("m", .vObj [("entities", .vObj [("A", c7EntityDoc)])])])]

/-- Fixture: the completed scenario document, with the project-level
required fields and the module's `enums` map present. -/
def c7FullDoc : Doc :=
  .vObj [("name", .vStr "p"), ("version", .vStr "1"),
         ("targetPackage", .vStr "t"),
         ("modules",
          .vObj [("m", .vObj [("entities", .vObj [("A", c7EntityDoc)]),
                              ("enums", .vObj [])])])]

/-- Fixture: the entity that loading the completed scenario document
produces for `A` (all components at their defaults). -/
def c7EntityA : Entity := {}

/-- Fixture: the project that loading the completed scenario document
produces. -/
def c7Proj : Project :=
  { name := Doc.vStr "p", version := Doc.vStr "1",
    targetPackage := Doc.vStr "t",
    modules := [("m", { entities := [("A", c7EntityA)], enums := [] })] }

/-- Fixture: a `TObject` field-type document whose `entity` payload is
present but garbage (a number). -/
def c10ObjectDoc : Doc := .vObj [("type", .vStr "TObject"), ("entity", .vNum 5)]

/-- Unfolding of `equalsEvenInListAux`: it is `equals` against the
argument with every `TList` layer stripped. -/
theorem equalsEvenInListAux_eq (a b : FieldType) :
    FieldType.equalsEvenInListAux a b =
      FieldType.equals a (some (stripListsSpec b)) := by
  induction b with
  | TList m ih =>
    rw [FieldType.equalsEvenInListAux, stripListsSpec]
    exact ih
  | TInteger => rfl
  | TLong => rfl
  | TDouble => rfl
  | TID => rfl
  | TURL => rfl
  | TDateTime => rfl
  | TBoolean => rfl
  | TString => rfl
  | TSSMap => rfl
  | TObject e => rfl
  | TEnum e => rfl
  | TUnknown u => rfl

/-- An entry list has no first minimum exactly when it is empty. -/
theorem firstMin_eq_none_iff (l : List (String × EnumItem)) :
    firstMin l = none ↔ l = [] := by
  cases l with
  | nil => simp [firstMin]
  | cons p rest =>
    obtain ⟨k, it⟩ := p
    constructor
    · intro h
      cases hfm : firstMin rest with
      | none =>
        rw [firstMin, hfm] at h
        have h2 : (some (it.value, k) : Option (Int × String)) = none := h
        exact absurd h2 (by simp)
      | some vk =>
        obtain ⟨v1, k1⟩ := vk
        rw [firstMin, hfm] at h
        have h2 : (if it.value ≤ v1 then some (it.value, k)
            else some (v1, k1)) = (none : Option (Int × String)) := h
        split at h2 <;> exact absurd h2 (by simp)
    · intro h
      cases h

/-- The scan loop with a running minimum already seen: the final key is
the first minimum of the remaining entries when that beats the running
minimum, and the running key otherwise. -/
theorem firstNameLoop_some (l : List (String × EnumItem)) :
    ∀ (i : Int) (k : String),
      firstNameLoop (some i) (some k) l =
        (match firstMin l with
         | none => some k
         | some (v, k1) => if v < i then some k1 else some k) := by
  induction l with
  | nil => intro i k; rfl
  | cons p rest ih =>
    obtain ⟨key, item⟩ := p
    intro i k
    cases hfm : firstMin rest with
    | none =>
      have hrest : rest = [] := (firstMin_eq_none_iff rest).mp hfm
      subst hrest
      by_cases hvi : item.value < i <;>
        simp [firstNameLoop, firstMin, hvi]
    | some vk =>
      obtain ⟨v, k1⟩ := vk
      by_cases hle : item.value ≤ v <;> by_cases hvi : item.value < i <;>
        by_cases hv2 : v < i <;> by_cases hv3 : v < item.value <;>
          first
            | omega
            | simp [firstNameLoop, ih, firstMin, hfm, hle, hvi, hv2, hv3]

/-- `firstName` is the key of the first minimum of the entry list. -/
theorem firstName_eq_firstMin (e : Enum) :
    Enum.firstName e = (firstMin e.enumMap).map (fun vk => vk.2) := by
  rw [Enum.firstName]
  cases hl : e.enumMap with
  | nil => rfl
  | cons p rest =>
    obtain ⟨key, item⟩ := p
    have hstep : firstNameLoop none none ((key, item) :: rest) =
        firstNameLoop (some item.value) (some key) rest := rfl
    rw [hstep, firstNameLoop_some]
    cases hfm : firstMin rest with
    | none =>
      have hrest : rest = [] := (firstMin_eq_none_iff rest).mp hfm
      subst hrest
      simp [firstMin]
    | some vk =>
      obtain ⟨v, k1⟩ := vk
      by_cases hle : item.value ≤ v <;> by_cases hv3 : v < item.value <;>
        first
          | omega
          | simp [firstMin, hfm, hle, hv3]

/-- The first minimum of an entry list is a genuine entry, its value is
a lower bound on all values, and every strictly earlier entry has a
strictly larger value. -/
theorem firstMin_spec :
    ∀ (l : List (String × EnumItem)) (v : Int) (k : String),
      firstMin l = some (v, k) →
      ∃ (i : Nat) (it : EnumItem), l[i]? = some (k, it) ∧ it.value = v ∧
        (∀ (j : Nat) (q : String × EnumItem), l[j]? = some q →
          v ≤ q.2.value) ∧
        (∀ (j : Nat) (q : String × EnumItem), j < i → l[j]? = some q →
          v < q.2.value) := by
  intro l
  induction l with
  | nil => intro v k h; simp [firstMin] at h
  | cons p rest ih =>
    obtain ⟨key, item⟩ := p
    intro v k h
    cases hfm : firstMin rest with
    | none =>
      rw [firstMin, hfm] at h
      have h2 : (some (item.value, key) : Option (Int × String)) =
          some (v, k) := h
      simp only [Option.some.injEq, Prod.mk.injEq] at h2
      obtain ⟨rfl, rfl⟩ := h2
      have hrest : rest = [] := (firstMin_eq_none_iff rest).mp hfm
      subst hrest
      refine ⟨0, item, by simp, rfl, ?_, ?_⟩
      · intro j q hj
        cases j with
        | zero =>
          simp only [List.getElem?_cons_zero, Option.some.injEq] at hj
          subst hj
          exact le_refl _
        | succ j1 => simp at hj
      · intro j q hjlt hj
        omega
    | some vk =>
      obtain ⟨v1, k1⟩ := vk
      rw [firstMin, hfm] at h
      have h2 : (if item.value ≤ v1 then some (item.value, key)
          else some (v1, k1)) = some (v, k) := h
      obtain ⟨i1, it1, hat, hval, hmin, hstrict⟩ := ih v1 k1 hfm
      by_cases hle : item.value ≤ v1
      · rw [if_pos hle] at h2
        simp only [Option.some.injEq, Prod.mk.injEq] at h2
        obtain ⟨rfl, rfl⟩ := h2
        refine ⟨0, item, by simp, rfl, ?_, ?_⟩
        · intro j q hj
          cases j with
          | zero =>
            simp only [List.getElem?_cons_zero, Option.some.injEq] at hj
            subst hj
            exact le_refl _
          | succ j1 =>
            simp only [List.getElem?_cons_succ] at hj
            have := hmin j1 q hj
            omega
        · intro j q hjlt hj
          omega
      · rw [if_neg hle] at h2
        simp only [Option.some.injEq, Prod.mk.injEq] at h2
        obtain ⟨rfl, rfl⟩ := h2
        refine ⟨i1 + 1, it1, by simpa using hat, hval, ?_, ?_⟩
        · intro j q hj
          cases j with
          | zero =>
            simp only [List.getElem?_cons_zero, Option.some.injEq] at hj
            subst hj
            have hq : ((key, item) : String × EnumItem).2.value = item.value :=
              rfl
            omega
          | succ j1 =>
            simp only [List.getElem?_cons_succ] at hj
            exact hmin j1 q hj
        · intro j q hjlt hj
          cases j with
          | zero =>
            simp only [List.getElem?_cons_zero, Option.some.injEq] at hj
            subst hj
            have hq : ((key, item) : String × EnumItem).2.value = item.value :=
              rfl
            omega
          | succ j1 =>
            simp only [List.getElem?_cons_succ] at hj
            exact hstrict j1 q (by omega) hj

/-- C4 (amended): on an empty enum both queries return null; on a
non-empty enum `firstName` returns the key of an entry whose value is
minimal over all items and `first` returns the item stored under
exactly that key; among entries tying for the minimum the winner is
the one visited FIRST during the scan (every strictly earlier entry
has a strictly larger value). -/
theorem firstName_first_min (e : Enum) :
    (e.enumMap = [] → Enum.firstName e = none ∧ Enum.first e = none) ∧
    (e.enumMap ≠ [] →
      ∃ (i : Nat) (k : String) (it : EnumItem),
        e.enumMap[i]? = some (k, it) ∧
        Enum.firstName e = some k ∧
        Enum.first e = slookup e.enumMap k ∧
        (∀ (j : Nat) (q : String × EnumItem), e.enumMap[j]? = some q →
          it.value ≤ q.2.value) ∧
        (∀ (j : Nat) (q : String × EnumItem), j < i →
          e.enumMap[j]? = some q → it.value < q.2.value)) := by
  constructor
  · intro h
    have h1 : Enum.firstName e = none := by
      rw [Enum.firstName, h]
      rfl
    refine ⟨h1, ?_⟩
    rw [Enum.first, h1]
  · intro h
    cases hfm : firstMin e.enumMap with
    | none => exact absurd ((firstMin_eq_none_iff e.enumMap).mp hfm) h
    | some vk =>
      obtain ⟨v, k⟩ := vk
      obtain ⟨i, it, hat, hval, hmin, hstrict⟩ :=
        firstMin_spec e.enumMap v k hfm
      have hfn : Enum.firstName e = some k := by
        rw [firstName_eq_firstMin, hfm]
        rfl
      refine ⟨i, k, it, hat, hfn, ?_, ?_, ?_⟩
      · rw [Enum.first, hfn]
      · intro j q hj
        have := hmin j q hj
        omega
      · intro j q hjlt hj
        have := hstrict j q hjlt hj
        omega

/-- C4 counterexample: on two items tying for the minimum value, in
visit order `b` then `c`, the code returns the first-visited key `"b"`,
not the last-visited `"c"` that the claim promises. -/
theorem firstName_tie_counterexample :
    Enum.firstName wuTieEnum = some "b" ∧ ("b" : String) ≠ "c" :=
  ⟨rfl, by decide⟩

/-- C4 witness: the amended theorem instantiated at the spec's
`{a ↦ 3, b ↦ 1, c ↦ 1}` enum. -/
theorem firstName_first_min_witness :
    wuAbcEnum.enumMap ≠ [] ∧
    (∃ (i : Nat) (k : String) (it : EnumItem),
      wuAbcEnum.enumMap[i]? = some (k, it) ∧
      Enum.firstName wuAbcEnum = some k ∧
      Enum.first wuAbcEnum = slookup wuAbcEnum.enumMap k ∧
      (∀ (j : Nat) (q : String × EnumItem), wuAbcEnum.enumMap[j]? = some q →
        it.value ≤ q.2.value) ∧
      (∀ (j : Nat) (q : String × EnumItem), j < i →
        wuAbcEnum.enumMap[j]? = some q → it.value < q.2.value)) :=
  ⟨List.cons_ne_nil _ _,
   (firstName_first_min wuAbcEnum).2 (List.cons_ne_nil _ _)⟩

/-- C9: `$ElementPath.equals` compares null/undefined as false and two
paths as the componentwise equality of `module` and `name`; two paths
with both coordinates null compare equal. -/
theorem elementPath_equals_componentwise (p q : ElementPath) :
    ElementPath.equals p none = false ∧
    (ElementPath.equals p (some q) = true ↔
      p.module = q.module ∧ p.name = q.name) ∧
    ElementPath.equals ⟨none, none⟩ (some ⟨none, none⟩) = true := by
  refine ⟨rfl, ?_, rfl⟩
  constructor
  · intro h
    simp only [ElementPath.equals, Bool.and_eq_true, decide_eq_true_eq] at h
    exact ⟨h.1.symm, h.2.symm⟩
  · intro h
    simp only [ElementPath.equals, Bool.and_eq_true, decide_eq_true_eq]
    exact ⟨h.1.symm, h.2.symm⟩

/-- C2: `equalsEvenInList` signals the fatal usage error (the thrown
string) whenever the receiver is a `TList`, returns false on a
null/undefined argument, and otherwise strips every `TList` nesting
from the argument before applying `equals`; in particular `TInteger`
against `TList (TList TInteger)` is true. -/
theorem equalsEvenInList_strips_lists (a b m : FieldType)
    (ob : Option FieldType) (ha : a.type ≠ "TList") :
    FieldType.equalsEvenInList (.TList m) ob =
      Except.error "List field shall not use quealsInList!" ∧
    FieldType.equalsEvenInList a none = Except.ok false ∧
    FieldType.equalsEvenInList a (some b) =
      Except.ok (FieldType.equals a (some (stripListsSpec b))) ∧
    FieldType.equalsEvenInList .TInteger (some (.TList (.TList .TInteger))) =
      Except.ok true := by
  refine ⟨rfl, ?_, ?_, rfl⟩
  · rw [FieldType.equalsEvenInList, if_neg ha]
  · rw [FieldType.equalsEvenInList, if_neg ha, equalsEvenInListAux_eq]

/-- C2 witness: instantiated at receiver `TInteger`, argument
`TList TInteger`. -/
theorem equalsEvenInList_strips_lists_witness :
    FieldType.equalsEvenInList (.TList .TInteger) none =
      Except.error "List field shall not use quealsInList!" ∧
    FieldType.equalsEvenInList .TInteger none = Except.ok false ∧
    FieldType.equalsEvenInList .TInteger (some (.TList .TInteger)) =
      Except.ok (FieldType.equals .TInteger
        (some (stripListsSpec (.TList .TInteger)))) ∧
    FieldType.equalsEvenInList .TInteger (some (.TList (.TList .TInteger))) =
      Except.ok true :=
  equalsEvenInList_strips_lists .TInteger (.TList .TInteger) .TInteger none
    (by decide)

/-- C3: `$FieldType.equals` is false against null/undefined and
otherwise coincides with the claim's structural equality: false on tag
mismatch, true on equal payload-free tags, path equality for
`TObject`/`TEnum`, recursive member equality for `TList`, name equality
for `TUnknown`. -/
theorem fieldType_equals_structural (a b : FieldType) :
    FieldType.equals a none = false ∧
    FieldType.equals a (some b) = equalsSpec a b := by
  refine ⟨by cases a <;> rfl, ?_⟩
  induction a generalizing b with
  | TInteger => cases b <;> rfl
  | TLong => cases b <;> rfl
  | TDouble => cases b <;> rfl
  | TID => cases b <;> rfl
  | TURL => cases b <;> rfl
  | TDateTime => cases b <;> rfl
  | TBoolean => cases b <;> rfl
  | TString => cases b <;> rfl
  | TSSMap => cases b <;> rfl
  | TObject e => cases b <;> rfl
  | TEnum e => cases b <;> rfl
  | TUnknown u => cases b <;> rfl
  | TList m ih =>
    cases b <;> try rfl
    exact ih _

/-- C10: `$ElementPath.load` always constructs a path, turning a
missing `module` or `name` into a null coordinate instead of a null
result; consequently the null checks that `$FieldType.load` runs on
the loaded path in its `TObject` and `TEnum` branches never fire: with
the payload present, of whatever shape, those branches always succeed. -/
theorem elementPath_load_never_null (d : Doc) :
    (d.get "module" = Doc.vNull → (ElementPath.load d).module = none) ∧
    (d.get "name" = Doc.vNull → (ElementPath.load d).name = none) ∧
    (d.get "type" = Doc.vStr "TObject" → notNU (d.get "entity") = true →
      FieldType.load d =
        some (.TObject (ElementPath.load (d.get "entity")))) ∧
    (d.get "type" = Doc.vStr "TEnum" → notNU (d.get "enu") = true →
      FieldType.load d = some (.TEnum (ElementPath.load (d.get "enu")))) := by
  refine ⟨?_, ?_, ?_, ?_⟩
  · intro h; simp [ElementPath.load, h, Doc.asStrOpt]
  · intro h; simp [ElementPath.load, h, Doc.asStrOpt]
  · intro ht he
    rw [FieldType.load.eq_def, ht]
    cases hE : d.get "entity" with
    | vNull => rw [hE] at he; exact absurd he (by simp [notNU])
    | vBool b => rfl
    | vNum n => rfl
    | vStr s => rfl
    | vObj fs => rfl
  · intro ht he
    rw [FieldType.load.eq_def, ht]
    cases hE : d.get "enu" with
    | vNull => rw [hE] at he; exact absurd he (by simp [notNU])
    | vBool b => rfl
    | vNum n => rfl
    | vStr s => rfl
    | vObj fs => rfl

/-- C8: refuted as stated — the code contradicts the claim's and the
spec's intent.  Under real JS lookup semantics, resolving a
prototype-colliding entity name under a stored module returns the
inherited `Object.prototype` member — non-null junk, not a stored
entity, where the claim demands null — and a prototype-colliding,
unstored module coordinate makes the expression throw a TypeError,
where the claim says no input raises.  On non-colliding coordinates
both functions behave exactly as the claim describes: the stored node,
or null on a missing project, coordinate, module or name. -/
theorem asEntityOf_prototype_divergence :
    slookup wuModule.entities "toString" = none ∧
    ElementPath.asEntityOf { module := some "m", name := some "toString" }
      (some wuProj) = JsOutcome.junk ∧
    slookup wuProj.modules "toString" = none ∧
    ElementPath.asEntityOf { module := some "toString", name := some "A" }
      (some wuProj) = JsOutcome.typeError ∧
    ElementPath.asEnumOf { module := some "m", name := some "toString" }
      (some wuProj) = JsOutcome.junk ∧
    ElementPath.asEnumOf { module := some "toString", name := some "A" }
      (some wuProj) = JsOutcome.typeError ∧
    ElementPath.asEntityOf { module := some "m", name := some "Parent" }
      (some wuProj) = JsOutcome.val wuParent ∧
    ElementPath.asEntityOf { module := some "m", name := some "Missing" }
      (some wuProj) = JsOutcome.nullv ∧
    ElementPath.asEntityOf { module := some "m", name := some "Parent" }
      none = JsOutcome.nullv :=
  ⟨rfl, rfl, rfl, rfl, rfl, rfl, rfl, rfl, rfl⟩

/-- C10 witness: a `TObject` document whose `entity` payload is a bare
number still loads, to a path with both coordinates null. -/
theorem elementPath_load_never_null_witness :
    FieldType.load c10ObjectDoc =
      some (.TObject (ElementPath.load (c10ObjectDoc.get "entity"))) :=
  (elementPath_load_never_null c10ObjectDoc).2.2.1 rfl rfl

/-- C1: refuted as stated — the code contradicts the claim's and the
spec's intent.  The filter `!this.genericMap[o]` is JS truthiness, so
the prototype-colliding local generic `"toString"` is removed from the
unsolved list although it is no key of `genericMap`; and a
prototype-colliding parent path makes the call throw a TypeError
instead of contributing the claimed empty parent list.  On
non-colliding names the code behaves exactly as the claim describes:
the parent/child fixture yields `["T"]` unsolved at the parent, `[]`
at the child (whose `genericMap` solves `"T"`), and `[]` with a null
project. -/
theorem getGenericUnsolved_prototype_divergence :
    protoGenericEntity.getGenericLocal = ["toString"] ∧
    slookup protoGenericEntity.genericMap "toString" = none ∧
    Entity.getGenericUnsolvedFuel 1 protoGenericEntity (some wuProj) =
      Except.ok [] ∧
    Entity.getGenericUnsolvedFuel 1 protoParentEntity (some wuProj) =
      Except.error jsTypeError ∧
    Entity.getGenericUnsolvedFuel 1 protoModuleEntity (some wuProj) =
      Except.error jsTypeError ∧
    Entity.getGenericUnsolvedFuel 1 wuParent (some wuProj) =
      Except.ok ["T"] ∧
    Entity.getGenericUnsolvedFuel 1 wuChild (some wuProj) =
      Except.ok [] ∧
    Entity.getGenericUnsolvedFuel 1 wuChild none = Except.ok [] :=
  ⟨rfl, rfl, rfl, rfl, rfl, rfl, rfl, rfl⟩

/-- C5: refuted as stated — the code contradicts the claim's and the
spec's intent in the unresolved-parent clause.  When the parent path
collides with an `Object.prototype` name, `asEntityOf` returns the
inherited member (or itself throws); `?.fromAncestorToMe` then calls
an undefined member and the walk throws before visiting anything, so
E is NOT always visited.  On a fully resolving chain the code behaves
exactly as the claim describes: the two-entity fixture chain is
visited parent first, child last (N + 1 visits for N ancestors), and
a parentless entity is visited alone. -/
theorem fromAncestorToMe_prototype_divergence :
    Entity.fromAncestorToMeFuel 1 wuProj wuChild =
      Except.ok [wuParent, wuChild] ∧
    Entity.fromAncestorToMeFuel 1 wuProj protoParentEntity =
      Except.error jsTypeError ∧
    Entity.fromAncestorToMeFuel 1 wuProj protoModuleEntity =
      Except.error jsTypeError ∧
    Entity.fromAncestorToMeFuel 1 wuProj wuParent =
      Except.ok [wuParent] :=
  ⟨rfl, rfl, rfl, rfl⟩

/-- C6: a field entry missing `isOptional` (or `type`, or
`isPathParameter`) makes its own `$Field.load` null; the enclosing
entity still loads, and its `fieldsLocal` holds exactly the loads of
the other entries — only the malformed entry is dropped, siblings are
untouched. -/
theorem malformed_field_dropped (d fd : Doc) (pre post : List (String × Doc))
    (nm : String)
    (hreq : (notNU (d.get "type") && notNU (d.get "isAbstract") &&
      notNU (d.get "fieldsLocal") && notNU (d.get "genericMap")) = true)
    (hsplit : (d.get "fieldsLocal").objFields = pre ++ (nm, fd) :: post)
    (hmal : notNU (fd.get "isOptional") = false ∨
      notNU (fd.get "type") = false ∨
      notNU (fd.get "isPathParameter") = false) :
    Field.load fd = none ∧
    ∃ ent, Entity.load d = some ent ∧
      ent.fieldsLocal = loadFieldEntries pre ++ loadFieldEntries post := by
  have hf : Field.load fd = none := by
    rw [Field.load]
    rcases hmal with h1 | h1 | h1 <;> simp [h1]
  refine ⟨hf, ?_⟩
  rw [Entity.load, hreq, if_neg (by simp)]
  refine ⟨_, rfl, ?_⟩
  show loadFieldEntries (d.get "fieldsLocal").objFields =
    loadFieldEntries pre ++ loadFieldEntries post
  rw [hsplit]
  simp [loadFieldEntries, List.filterMap_append, List.filterMap_cons, hf]

/-- C6 witness: the fixture entity document with one good and one
malformed field; only `good` survives in `fieldsLocal`. -/
theorem malformed_field_dropped_witness :
    Field.load badFieldDoc = none ∧
    ∃ ent, Entity.load c6EntityDoc = some ent ∧
      ent.fieldsLocal = loadFieldEntries [("good", goodFieldDoc)] ++
        loadFieldEntries [] :=
  malformed_field_dropped c6EntityDoc badFieldDoc [("good", goodFieldDoc)] []
    "bad" rfl rfl (Or.inl rfl)

/-- C7 (amended): for every project, `flatEntities` (resp. `flatEnums`)
contains one pair per entity (resp. enum) of every module — the length
is the total count, membership of a pair is equivalent to the entity
(resp. enum) being stored in some module under those keys, and every
pair's path has both coordinates set.  The claim's scenario document
loads to one flat entity with path `(m, A)` only after being completed
with the required project fields (`name`, `version`, `targetPackage`)
and the module's `enums` map; as literally written it fails to load. -/
theorem flatEntities_flatEnums_complete (p : Project) :
    (p.flatEntities.length =
      (p.modules.map (fun mkv => mkv.2.entities.length)).sum) ∧
    (∀ mk nk ent,
      (({ module := some mk, name := some nk } : ElementPath), ent) ∈
          p.flatEntities ↔
        ∃ m, (mk, m) ∈ p.modules ∧ (nk, ent) ∈ m.entities) ∧
    (∀ pr, pr ∈ p.flatEntities →
      ∃ mk nk, pr.1 = ({ module := some mk, name := some nk } : ElementPath)) ∧
    (p.flatEnums.length =
      (p.modules.map (fun mkv => mkv.2.enums.length)).sum) ∧
    (∀ mk nk enu,
      (({ module := some mk, name := some nk } : ElementPath), enu) ∈
          p.flatEnums ↔
        ∃ m, (mk, m) ∈ p.modules ∧ (nk, enu) ∈ m.enums) ∧
    (∀ pr, pr ∈ p.flatEnums →
      ∃ mk nk, pr.1 = ({ module := some mk, name := some nk } : ElementPath)) ∧
    (Project.load c7FullDoc = some c7Proj ∧
      c7Proj.flatEntities =
        [(({ module := some "m", name := some "A" } : ElementPath), c7EntityA)]) := by
  refine ⟨?_, ?_, ?_, ?_, ?_, ?_, rfl, rfl⟩
  · rw [Project.flatEntities]
    induction p.modules with
    | nil => rfl
    | cons mkv rest ih =>
      simp only [List.flatMap_cons, List.length_append, List.length_map,
        List.map_cons, List.sum_cons, ih]
  · intro mk nk ent
    constructor
    · intro hmem
      simp only [Project.flatEntities, List.mem_flatMap, List.mem_map] at hmem
      obtain ⟨mkv, hm, ekv, he, heq⟩ := hmem
      simp only [Prod.mk.injEq, ElementPath.mk.injEq, Option.some.injEq]
        at heq
      obtain ⟨⟨h1, h2⟩, h3⟩ := heq
      subst h1; subst h2; subst h3
      exact ⟨mkv.2, hm, he⟩
    · rintro ⟨m, hm, he⟩
      simp only [Project.flatEntities, List.mem_flatMap, List.mem_map]
      exact ⟨(mk, m), hm, (nk, ent), he, rfl⟩
  · intro pr hpr
    simp only [Project.flatEntities, List.mem_flatMap, List.mem_map] at hpr
    obtain ⟨mkv, hm, ekv, he, heq⟩ := hpr
    exact ⟨mkv.1, ekv.1, by rw [← heq]⟩
  · rw [Project.flatEnums]
    induction p.modules with
    | nil => rfl
    | cons mkv rest ih =>
      simp only [List.flatMap_cons, List.length_append, List.length_map,
        List.map_cons, List.sum_cons, ih]
  · intro mk nk enu
    constructor
    · intro hmem
      simp only [Project.flatEnums, List.mem_flatMap, List.mem_map] at hmem
      obtain ⟨mkv, hm, ekv, he, heq⟩ := hmem
      simp only [Prod.mk.injEq, ElementPath.mk.injEq, Option.some.injEq]
        at heq
      obtain ⟨⟨h1, h2⟩, h3⟩ := heq
      subst h1; subst h2; subst h3
      exact ⟨mkv.2, hm, he⟩
    · rintro ⟨m, hm, he⟩
      simp only [Project.flatEnums, List.mem_flatMap, List.mem_map]
      exact ⟨(mk, m), hm, (nk, enu), he, rfl⟩
  · intro pr hpr
    simp only [Project.flatEnums, List.mem_flatMap, List.mem_map] at hpr
    obtain ⟨mkv, hm, ekv, he, heq⟩ := hpr
    exact ⟨mkv.1, ekv.1, by rw [← heq]⟩

/-- C7 counterexample: the scenario document as literally written in
the claim cannot yield a one-entry `flatEntities`, because it does not
even load: the project-level required fields are absent, so
`Project.load` returns null, and the module alone also fails to load
for lack of `enums`. -/
theorem flat_scenario_counterexample :
    Project.load c7ClaimDoc = none ∧
    Module.load ((c7ClaimDoc.get "modules").get "m") = none :=
  ⟨rfl, rfl⟩

/-- C7 witness: the completeness theorem instantiated at the fixture
project. -/
theorem flatEntities_flatEnums_complete_witness :
    wuProj.flatEntities.length =
      (wuProj.modules.map (fun mkv => mkv.2.entities.length)).sum :=
  (flatEntities_flatEnums_complete wuProj).1

end WuApi
